import Mathlib

/-!
# Verification of the CAP-ROC reference calculator

Shallow embedding of `src/cap_roc_tool.py` (CAP-ROC v0.2): the Poisson CDF
recurrence, the overload probability, the bisection inversion `lambda_max_poisson`,
and the orchestration `cap_roc`.  Python floats are modelled by real numbers;
`raise ValueError` is modelled by `Except.error` carrying the message string;
the `float("nan")` sentinel for "undefined derived quantity" is modelled by
`Option.none`.  Python's builtin `round` (ties to even) is modelled by
`roundHalfEven`.
-/

namespace CapRoc

noncomputable section

/-- The clamp at the end of `poisson_cdf`:
`if total < 0.0: return 0.0; if total > 1.0: return 1.0; return total`. -/
def clamp01 (x : ℝ) : ℝ := if x < 0 then 0 else if x > 1 then 1 else x

/-- The term/total recurrence of `poisson_cdf`:
`term = exp(-lam); total = term; for i in range(1, k+1): term *= lam/i; total += term`.
`cdfLoop lam n` is the pair `(term, total)` after the iterations `i = 1..n`. -/
def cdfLoop (lam : ℝ) : ℕ → ℝ × ℝ
  | 0 => (Real.exp (-lam), Real.exp (-lam))
  | n + 1 =>
    let q := cdfLoop lam n
    (q.1 * (lam / (n + 1 : ℝ)), q.2 + q.1 * (lam / (n + 1 : ℝ)))

/-- `poisson_cdf(k, lam)` from the source: returns `0.0` when `k < 0`, raises
`ValueError("lam must be >= 0")` when `lam < 0`, otherwise the clamped recurrence sum. -/
def poisson_cdf (k : ℤ) (lam : ℝ) : Except String ℝ :=
  if k < 0 then .ok 0
  else if lam < 0 then .error "lam must be >= 0"
  else .ok (clamp01 (cdfLoop lam k.toNat).2)

/-- `poisson_overload_prob(lam, C) = 1.0 - poisson_cdf(C, lam)`. -/
def poisson_overload_prob (lam : ℝ) (C : ℤ) : Except String ℝ :=
  match poisson_cdf C lam with
  | .error e => .error e
  | .ok t => .ok (1 - t)

/-- The bracketing loop of `lambda_max_poisson`
(`for _ in range(80): if overload(hi) > delta: break; hi *= 2; if hi > 1e6: break`),
with the iteration count as fuel. -/
def bracketHi (delta : ℝ) (C : ℤ) : ℕ → ℝ → Except String ℝ
  | 0, hi => .ok hi
  | n + 1, hi =>
    match poisson_overload_prob hi C with
    | .error e => .error e
    | .ok prob =>
      if prob > delta then .ok hi
      else if 2 * hi > 1e6 then .ok (2 * hi)
      else bracketHi delta C n (2 * hi)

/-- The binary-search loop of `lambda_max_poisson`
(`for _ in range(80): mid = 0.5*(lo+hi); ...; if hi - lo < tol*(1.0+lo): break`,
returning `lo`), with the iteration count as fuel. -/
def bisect (delta tol : ℝ) (C : ℤ) : ℕ → ℝ → ℝ → Except String ℝ
  | 0, lo, _ => .ok lo
  | n + 1, lo, hi =>
    match poisson_overload_prob (0.5 * (lo + hi)) C with
    | .error e => .error e
    | .ok prob =>
      if prob > delta then
        if 0.5 * (lo + hi) - lo < tol * (1 + lo) then .ok lo
        else bisect delta tol C n lo (0.5 * (lo + hi))
      else
        if hi - 0.5 * (lo + hi) < tol * (1 + 0.5 * (lo + hi)) then .ok (0.5 * (lo + hi))
        else bisect delta tol C n (0.5 * (lo + hi)) hi

/-- `lambda_max_poisson(delta, C, tol)` from the source: validation, bracketing from
`hi = max(1.0, C+1.0)`, then 80 bisection iterations starting from `lo = 0`. -/
def lambda_max_poisson (delta : ℝ) (C : ℤ) (tol : ℝ) : Except String ℝ :=
  if ¬(0 < delta ∧ delta < 1) then .error "delta must be in (0,1)"
  else if C < 0 then .error "C must be >= 0"
  else
    match bracketHi delta C 80 (max 1 ((C : ℝ) + 1)) with
    | .error e => .error e
    | .ok hi => bisect delta tol C 80 0 hi

/-- Python's builtin `round`: round half to even (banker's rounding), used by
`cap_roc` as `C_int = int(round(C))`. -/
def roundHalfEven (x : ℝ) : ℤ :=
  if x - ⌊x⌋ < 1 / 2 then ⌊x⌋
  else if x - ⌊x⌋ > 1 / 2 then ⌊x⌋ + 1
  else if Even ⌊x⌋ then ⌊x⌋ else ⌊x⌋ + 1

/-- The delta-gate block of the result dictionary of `cap_roc`.
`fpr_max_delta_raw = none` models the `float("nan")` sentinel. -/
structure DeltaOut where
  delta : ℝ
  C_int : ℤ
  lam_max : ℝ
  overload_prob_at_A : ℝ
  passed_delta : Prop
  fpr_max_delta_raw : Option ℝ

/-- The result dictionary of `cap_roc`.  The `_raw` fields use `none` for the
`float("nan")` sentinel; `delta = none` when no `--delta` was supplied. -/
structure CapRocOut where
  A : ℝ
  passed_mean : Prop
  fpr_max_mean_raw : Option ℝ
  tpr_max_mean_raw : Option ℝ
  C_required : ℝ
  delta : Option DeltaOut

/-- `cap_roc(R, p, tpr, fpr, C, delta)` from the source: input validation in order,
mean-gate quantities, then the optional Poisson delta gate. -/
def cap_roc (R p tpr fpr C : ℝ) (delta : Option ℝ) : Except String CapRocOut :=
  if R ≤ 0 then .error "R must be > 0"
  else if ¬(0 ≤ p ∧ p ≤ 1) then .error "p must be in [0,1]"
  else if ¬(0 ≤ tpr ∧ tpr ≤ 1) then .error "TPR must be in [0,1]"
  else if ¬(0 ≤ fpr ∧ fpr ≤ 1) then .error "FPR must be in [0,1]"
  else if C < 0 then .error "C must be >= 0"
  else
    match delta with
    | none =>
      .ok
        { A := R * (p * tpr + (1 - p) * fpr)
          passed_mean := R * (p * tpr + (1 - p) * fpr) ≤ C
          fpr_max_mean_raw := if p < 1 then some ((C / R - p * tpr) / (1 - p)) else none
          tpr_max_mean_raw := if 0 < p then some ((C / R - (1 - p) * fpr) / p) else none
          C_required := R * (p * tpr + (1 - p) * fpr)
          delta := none }
    | some d =>
      match lambda_max_poisson d (roundHalfEven C) 1e-8 with
      | .error e => .error e
      | .ok lamMax =>
        match poisson_overload_prob (R * (p * tpr + (1 - p) * fpr)) (roundHalfEven C) with
        | .error e => .error e
        | .ok ov =>
          .ok
            { A := R * (p * tpr + (1 - p) * fpr)
              passed_mean := R * (p * tpr + (1 - p) * fpr) ≤ C
              fpr_max_mean_raw := if p < 1 then some ((C / R - p * tpr) / (1 - p)) else none
              tpr_max_mean_raw := if 0 < p then some ((C / R - (1 - p) * fpr) / p) else none
              C_required := R * (p * tpr + (1 - p) * fpr)
              delta := some
                { delta := d
                  C_int := roundHalfEven C
                  lam_max := lamMax
                  overload_prob_at_A := ov
                  passed_delta := R * (p * tpr + (1 - p) * fpr) ≤ lamMax
                  fpr_max_delta_raw :=
                    if p < 1 then some ((lamMax / R - p * tpr) / (1 - p)) else none } }

/-- Reference Poisson CDF from the spec: `Σ_{i=0..k} e^(-λ) λ^i / i!`, clamped to
`[0,1]`, and `0` for `k < 0`. -/
def poisson_cdf_spec (k : ℤ) (lam : ℝ) : ℝ :=
  if k < 0 then 0
  else clamp01 (∑ i in Finset.range (k.toNat + 1), Real.exp (-lam) * lam ^ i / (Nat.factorial i))

/-- The partial sum `Σ_{i=0..n} e^(-x) x^i / i!` as a function of the rate `x`
(the value computed by the `poisson_cdf` recurrence before clamping). -/
def pSum (n : ℕ) (x : ℝ) : ℝ :=
  ∑ i in Finset.range (n + 1), Real.exp (-x) * x ^ i / (Nat.factorial i)

/-! ## Basic facts about the clamp and the CDF recurrence -/

theorem clamp01_nonneg (x : ℝ) : 0 ≤ clamp01 x := by
  unfold clamp01
  split_ifs with h1 h2
  · exact le_rfl
  · norm_num
  · exact le_of_not_lt h1

theorem clamp01_le_one (x : ℝ) : clamp01 x ≤ 1 := by
  unfold clamp01
  split_ifs with h1 h2
  · norm_num
  · exact le_rfl
  · exact le_of_not_lt h2

theorem clamp01_mono {x y : ℝ} (h : x ≤ y) : clamp01 x ≤ clamp01 y := by
  unfold clamp01
  split_ifs <;> linarith

theorem clamp01_of_mem {x : ℝ} (h0 : 0 ≤ x) (h1 : x ≤ 1) : clamp01 x = x := by
  unfold clamp01
  rw [if_neg (not_lt.mpr h0), if_neg (not_lt.mpr h1)]

theorem cdfLoop_fst (lam : ℝ) (n : ℕ) :
    (cdfLoop lam n).1 = Real.exp (-lam) * lam ^ n / (Nat.factorial n) := by
  induction n with
  | zero => simp [cdfLoop]
  | succ n ih =>
    show (cdfLoop lam n).1 * (lam / (n + 1 : ℝ)) = _
    rw [ih, Nat.factorial_succ]
    have hfac : ((Nat.factorial n : ℝ)) ≠ 0 := by
      exact_mod_cast (Nat.factorial_pos n).ne'
    have hn1 : ((n : ℝ) + 1) ≠ 0 := by positivity
    push_cast
    field_simp
    ring

theorem cdfLoop_snd (lam : ℝ) (n : ℕ) :
    (cdfLoop lam n).2 =
      ∑ i in Finset.range (n + 1), Real.exp (-lam) * lam ^ i / (Nat.factorial i) := by
  induction n with
  | zero => simp [cdfLoop]
  | succ n ih =>
    have hstep : (cdfLoop lam (n + 1)).2 = (cdfLoop lam n).2 + (cdfLoop lam (n + 1)).1 := rfl
    rw [hstep, ih, cdfLoop_fst]
    exact (Finset.sum_range_succ _ (n + 1)).symm

theorem poisson_cdf_eq_ok {k : ℤ} {lam : ℝ} (hk : 0 ≤ k) (hlam : 0 ≤ lam) :
    poisson_cdf k lam = .ok (clamp01 (cdfLoop lam k.toNat).2) := by
  unfold poisson_cdf
  rw [if_neg (not_lt.mpr hk), if_neg (not_lt.mpr hlam)]

/-! ## C3: the recurrence computes the reference Poisson CDF -/

/-- C3: for every integer `k` and every `lam ≥ 0`, `poisson_cdf k lam` succeeds and
returns exactly the clamped reference sum `Σ_{i=0..k} e^(-lam) lam^i / i!`
(`0` when `k < 0`), and the result always lies in `[0, 1]`. -/
theorem poisson_cdf_refines_spec (k : ℤ) (lam : ℝ) (hlam : 0 ≤ lam) :
    poisson_cdf k lam = .ok (poisson_cdf_spec k lam) ∧
      0 ≤ poisson_cdf_spec k lam ∧ poisson_cdf_spec k lam ≤ 1 := by
  by_cases hk : k < 0
  · unfold poisson_cdf poisson_cdf_spec
    rw [if_pos hk, if_pos hk]
    exact ⟨rfl, le_rfl, zero_le_one⟩
  · unfold poisson_cdf_spec
    rw [if_neg hk]
    rw [poisson_cdf_eq_ok (not_lt.mp hk) hlam, cdfLoop_snd]
    exact ⟨rfl, clamp01_nonneg _, clamp01_le_one _⟩

/-- C3 witness: concrete instance at `k = 2`, `lam = 1`. -/
theorem poisson_cdf_refines_spec_witness :
    poisson_cdf 2 1 = .ok (poisson_cdf_spec 2 1) ∧
      0 ≤ poisson_cdf_spec 2 1 ∧ poisson_cdf_spec 2 1 ≤ 1 :=
  poisson_cdf_refines_spec 2 1 (by norm_num)

/-! ## C6: error behaviour of `poisson_cdf` -/

/-- C6 counterexample: the claim says `poisson_cdf` fails whenever `lam < 0` for
*every* integer `k`, but at `k = -1`, `lam = -1` the source returns `0.0` before
ever validating `lam` (the `k < 0` early return precedes the `lam < 0` check). -/
theorem poisson_cdf_neg_lam_counterexample :
    poisson_cdf (-1) (-1) = .ok 0 ∧ ∀ e, poisson_cdf (-1) (-1) ≠ .error e := by
  constructor
  · unfold poisson_cdf
    rw [if_pos (by norm_num : (-1 : ℤ) < 0)]
  · intro e
    unfold poisson_cdf
    rw [if_pos (by norm_num : (-1 : ℤ) < 0)]
    exact fun h => Except.noConfusion h

/-- C6 amended: `poisson_cdf k lam` fails with the `lam`-validation error exactly
when `k ≥ 0` and `lam < 0`; whenever `k < 0` it returns `0` for every `lam`,
negative `lam` included, because the `k < 0` early return comes first. -/
theorem poisson_cdf_error_behaviour (k : ℤ) (lam : ℝ) :
    (k < 0 → poisson_cdf k lam = .ok 0) ∧
      (0 ≤ k → lam < 0 → poisson_cdf k lam = .error "lam must be >= 0") := by
  constructor
  · intro hk
    unfold poisson_cdf
    rw [if_pos hk]
  · intro hk hlam
    unfold poisson_cdf
    rw [if_neg (not_lt.mpr hk), if_pos hlam]

/-- C6 amended witness: both branches at concrete inputs. -/
theorem poisson_cdf_error_behaviour_witness :
    poisson_cdf (-1) 5 = .ok 0 ∧ poisson_cdf 0 (-1) = .error "lam must be >= 0" :=
  ⟨(poisson_cdf_error_behaviour (-1) 5).1 (by norm_num),
   (poisson_cdf_error_behaviour 0 (-1)).2 (by norm_num) (by norm_num)⟩

/-! ## C4: monotonicity of the overload probability in the rate -/

theorem cdfLoop_snd_eq_pSum (lam : ℝ) (n : ℕ) : (cdfLoop lam n).2 = pSum n lam :=
  cdfLoop_snd lam n

theorem hasDerivAt_pSum (n : ℕ) (x : ℝ) :
    HasDerivAt (pSum n) (-(Real.exp (-x) * x ^ n / (Nat.factorial n))) x := by
  induction n with
  | zero =>
    have h0 : pSum 0 = fun y : ℝ => Real.exp (-y) := by
      funext y; simp [pSum]
    rw [h0]
    have h := (hasDerivAt_neg x).exp
    simpa using h
  | succ n ih =>
    have hrw : pSum (n + 1) =
        fun y : ℝ => pSum n y + Real.exp (-y) * y ^ (n + 1) / (Nat.factorial (n + 1)) := by
      funext y
      simp [pSum, Finset.sum_range_succ]
    rw [hrw]
    have hexp : HasDerivAt (fun y : ℝ => Real.exp (-y)) (-Real.exp (-x)) x := by
      simpa using (hasDerivAt_neg x).exp
    have hpow : HasDerivAt (fun y : ℝ => y ^ (n + 1)) (((n : ℝ) + 1) * x ^ n) x := by
      simpa using hasDerivAt_pow (n + 1) x
    have hterm := (hexp.mul hpow).div_const ((Nat.factorial (n + 1) : ℝ))
    have hsum := ih.add hterm
    convert hsum using 1
    have hfac : ((Nat.factorial n : ℝ)) ≠ 0 := by exact_mod_cast (Nat.factorial_pos n).ne'
    have hn1 : ((n : ℝ) + 1) ≠ 0 := by positivity
    rw [Nat.factorial_succ]
    push_cast
    field_simp
    ring

theorem pSum_antitoneOn (n : ℕ) : AntitoneOn (pSum n) (Set.Ici 0) := by
  refine antitoneOn_of_deriv_nonpos (convex_Ici 0) ?_ ?_ ?_
  · exact fun x _ => (hasDerivAt_pSum n x).continuousAt.continuousWithinAt
  · exact fun x _ => (hasDerivAt_pSum n x).differentiableAt.differentiableWithinAt
  · intro x hx
    rw [(hasDerivAt_pSum n x).deriv]
    rw [interior_Ici] at hx
    have hxpos : (0 : ℝ) < x := hx
    have hnn : 0 ≤ Real.exp (-x) * x ^ n / (Nat.factorial n) := by positivity
    linarith

theorem poisson_overload_prob_eq_ok {C : ℤ} {lam : ℝ} (hC : 0 ≤ C) (hlam : 0 ≤ lam) :
    poisson_overload_prob lam C = .ok (1 - clamp01 (pSum C.toNat lam)) := by
  unfold poisson_overload_prob
  rw [poisson_cdf_eq_ok hC hlam, cdfLoop_snd_eq_pSum]

/-- C4: for every fixed integer `C ≥ 0`, `poisson_overload_prob` succeeds on
nonnegative rates and is non-decreasing in the rate: `0 ≤ lam1 ≤ lam2` gives
`P(N > C)` at `lam1` at most that at `lam2`. -/
theorem poisson_overload_prob_mono (C : ℤ) (lam1 lam2 : ℝ)
    (hC : 0 ≤ C) (h1 : 0 ≤ lam1) (h12 : lam1 ≤ lam2) :
    ∃ p1 p2, poisson_overload_prob lam1 C = .ok p1 ∧
      poisson_overload_prob lam2 C = .ok p2 ∧ p1 ≤ p2 := by
  have h2 : 0 ≤ lam2 := le_trans h1 h12
  refine ⟨_, _, poisson_overload_prob_eq_ok hC h1, poisson_overload_prob_eq_ok hC h2, ?_⟩
  have hanti := pSum_antitoneOn C.toNat (Set.mem_Ici.mpr h1) (Set.mem_Ici.mpr h2) h12
  have := clamp01_mono hanti
  linarith

/-- C4 witness: concrete instance at `C = 1`, rates `0 ≤ 1`. -/
theorem poisson_overload_prob_mono_witness :
    ∃ p1 p2, poisson_overload_prob 0 1 = .ok p1 ∧
      poisson_overload_prob 1 1 = .ok p2 ∧ p1 ≤ p2 :=
  poisson_overload_prob_mono 1 0 1 (by norm_num) (by norm_num) (by norm_num)

/-! ## The bracketing and bisection loops of `lambda_max_poisson` -/

theorem pSum_at_zero (n : ℕ) : pSum n 0 = 1 := by
  unfold pSum
  rw [Finset.sum_eq_single 0]
  · simp
  · intro i _ hne
    simp [zero_pow hne]
  · intro h
    exact absurd (Finset.mem_range.mpr (Nat.succ_pos n)) h

theorem overload_val_at_zero (n : ℕ) : 1 - clamp01 (pSum n 0) = 0 := by
  rw [pSum_at_zero, clamp01_of_mem zero_le_one le_rfl]
  norm_num

theorem bracketHi_ok {δ : ℝ} {C : ℤ} (hC : 0 ≤ C) :
    ∀ (n : ℕ) (hi : ℝ), 0 ≤ hi → ∃ h, bracketHi δ C n hi = .ok h ∧ 0 ≤ h := by
  intro n
  induction n with
  | zero => exact fun hi hhi => ⟨hi, rfl, hhi⟩
  | succ n ih =>
    intro hi hhi
    have hov := poisson_overload_prob_eq_ok hC hhi
    by_cases hgt : 1 - clamp01 (pSum C.toNat hi) > δ
    · refine ⟨hi, ?_, hhi⟩
      simp only [bracketHi, hov, if_pos hgt]
    · by_cases hbig : 2 * hi > 1e6
      · refine ⟨2 * hi, ?_, by linarith⟩
        simp only [bracketHi, hov, if_neg hgt, if_pos hbig]
      · obtain ⟨h, hh, hhn⟩ := ih (2 * hi) (by linarith)
        refine ⟨h, ?_, hhn⟩
        simp only [bracketHi, hov, if_neg hgt, if_neg hbig]
        exact hh

theorem bisect_lo_safe {δ tol : ℝ} {C : ℤ} (hC : 0 ≤ C) :
    ∀ (n : ℕ) (lo hi : ℝ), 0 ≤ lo → 0 ≤ hi → 1 - clamp01 (pSum C.toNat lo) ≤ δ →
      ∃ L, bisect δ tol C n lo hi = .ok L ∧ 0 ≤ L ∧ 1 - clamp01 (pSum C.toNat L) ≤ δ := by
  intro n
  induction n with
  | zero => exact fun lo _ hlo _ hsafe => ⟨lo, rfl, hlo, hsafe⟩
  | succ n ih =>
    intro lo hi hlo hhi hsafe
    have hmid : 0 ≤ 0.5 * (lo + hi) := by linarith
    have hov := poisson_overload_prob_eq_ok hC hmid
    by_cases hgt : 1 - clamp01 (pSum C.toNat (0.5 * (lo + hi))) > δ
    · by_cases hstop : 0.5 * (lo + hi) - lo < tol * (1 + lo)
      · refine ⟨lo, ?_, hlo, hsafe⟩
        simp only [bisect, hov, if_pos hgt, if_pos hstop]
      · obtain ⟨L, hL, hL0, hLs⟩ := ih lo (0.5 * (lo + hi)) hlo hmid hsafe
        refine ⟨L, ?_, hL0, hLs⟩
        simp only [bisect, hov, if_pos hgt, if_neg hstop]
        exact hL
    · have hsafe' : 1 - clamp01 (pSum C.toNat (0.5 * (lo + hi))) ≤ δ := le_of_not_lt hgt
      by_cases hstop : hi - 0.5 * (lo + hi) < tol * (1 + 0.5 * (lo + hi))
      · refine ⟨0.5 * (lo + hi), ?_, hmid, hsafe'⟩
        simp only [bisect, hov, if_neg hgt, if_pos hstop]
      · obtain ⟨L, hL, hL0, hLs⟩ := ih (0.5 * (lo + hi)) hi hmid hhi hsafe'
        refine ⟨L, ?_, hL0, hLs⟩
        simp only [bisect, hov, if_neg hgt, if_neg hstop]
        exact hL

/-- Helper: for valid inputs, `lambda_max_poisson` succeeds, its result is
nonnegative, and the overload probability at the result is at most `delta`. -/
theorem lambda_max_poisson_ok {δ : ℝ} {C : ℤ} (hδ0 : 0 < δ) (hδ1 : δ < 1) (hC : 0 ≤ C)
    (tol : ℝ) :
    ∃ L q, lambda_max_poisson δ C tol = .ok L ∧ 0 ≤ L ∧
      poisson_overload_prob L C = .ok q ∧ q ≤ δ := by
  have hhi0 : (0 : ℝ) ≤ max 1 ((C : ℝ) + 1) := le_trans zero_le_one (le_max_left _ _)
  obtain ⟨hi, hbr, hhi⟩ := bracketHi_ok hC 80 (max 1 ((C : ℝ) + 1)) hhi0
  have hsafe0 : 1 - clamp01 (pSum C.toNat 0) ≤ δ := by
    rw [overload_val_at_zero]
    exact le_of_lt hδ0
  obtain ⟨L, hbi, hL0, hLs⟩ := @bisect_lo_safe δ tol C hC 80 0 hi le_rfl hhi hsafe0
  refine ⟨L, 1 - clamp01 (pSum C.toNat L), ?_, hL0, poisson_overload_prob_eq_ok hC hL0, hLs⟩
  have hnn : ¬¬(0 < δ ∧ δ < 1) := not_not_intro ⟨hδ0, hδ1⟩
  unfold lambda_max_poisson
  rw [if_neg hnn, if_neg (not_lt.mpr hC), hbr]
  exact hbi

/-! ## C1: the returned rate always satisfies the risk bound -/

/-- C1: for every `delta` in `(0,1)` and every integer `C ≥ 0`,
`lambda_max_poisson delta C tol` succeeds with a nonnegative value `L`, and the
overload probability at `L` is at most `delta` (the bisection only ever advances
`lo` to points verified safe, starting from `lo = 0` where it is `0`). -/
theorem lambda_max_poisson_risk_bound (δ : ℝ) (C : ℤ) (tol : ℝ)
    (hδ0 : 0 < δ) (hδ1 : δ < 1) (hC : 0 ≤ C) :
    ∃ L q, lambda_max_poisson δ C tol = .ok L ∧ 0 ≤ L ∧
      poisson_overload_prob L C = .ok q ∧ q ≤ δ :=
  lambda_max_poisson_ok hδ0 hδ1 hC tol

/-- C1 witness: concrete instance at `delta = 1/2`, `C = 0`, `tol = 1e-8`. -/
theorem lambda_max_poisson_risk_bound_witness :
    ∃ L q, lambda_max_poisson (1/2) 0 1e-8 = .ok L ∧ 0 ≤ L ∧
      poisson_overload_prob L 0 = .ok q ∧ q ≤ 1/2 :=
  lambda_max_poisson_risk_bound (1/2) 0 1e-8 (by norm_num) (by norm_num) (by norm_num)

theorem lambda_max_err_delta (δ : ℝ) (C : ℤ) (tol : ℝ) (h : ¬(0 < δ ∧ δ < 1)) :
    lambda_max_poisson δ C tol = .error "delta must be in (0,1)" := by
  simp only [lambda_max_poisson, if_pos h]

theorem lambda_max_err_C (δ : ℝ) (C : ℤ) (tol : ℝ) (h : 0 < δ ∧ δ < 1) (hC : C < 0) :
    lambda_max_poisson δ C tol = .error "C must be >= 0" := by
  simp only [lambda_max_poisson, if_neg (not_not_intro h), if_pos hC]

/-! ## C7: validation behaviour of `lambda_max_poisson` -/

/-- C7: `lambda_max_poisson` succeeds exactly when `0 < delta < 1` and `C ≥ 0`;
when `delta` lies outside the open interval `(0,1)` (endpoints included) it fails
with the `delta` validation error, and for valid `delta` with `C < 0` it fails
with the `C` validation error. -/
theorem lambda_max_poisson_validation (δ : ℝ) (C : ℤ) :
    ((∃ L, lambda_max_poisson δ C 1e-8 = .ok L) ↔ (0 < δ ∧ δ < 1 ∧ 0 ≤ C)) ∧
      (¬(0 < δ ∧ δ < 1) → lambda_max_poisson δ C 1e-8 = .error "delta must be in (0,1)") ∧
      ((0 < δ ∧ δ < 1) → C < 0 → lambda_max_poisson δ C 1e-8 = .error "C must be >= 0") := by
  have herr1 := lambda_max_err_delta δ C 1e-8
  have herr2 := fun h hC => lambda_max_err_C δ C 1e-8 h hC
  refine ⟨⟨?_, ?_⟩, herr1, herr2⟩
  · rintro ⟨L, hL⟩
    by_cases h1 : 0 < δ ∧ δ < 1
    · by_cases h2 : C < 0
      · rw [herr2 h1 h2] at hL
        exact absurd hL (fun h => Except.noConfusion h)
      · exact ⟨h1.1, h1.2, not_lt.mp h2⟩
    · rw [herr1 h1] at hL
      exact absurd hL (fun h => Except.noConfusion h)
  · rintro ⟨hδ0, hδ1, hC⟩
    obtain ⟨L, _, hL, _⟩ := lambda_max_poisson_ok hδ0 hδ1 hC 1e-8
    exact ⟨L, hL⟩

/-- C7 witness: both error branches and the success branch at concrete inputs. -/
theorem lambda_max_poisson_validation_witness :
    lambda_max_poisson 2 0 1e-8 = .error "delta must be in (0,1)" ∧
      lambda_max_poisson 1 0 1e-8 = .error "delta must be in (0,1)" ∧
      lambda_max_poisson (1/2) (-1) 1e-8 = .error "C must be >= 0" ∧
      (∃ L, lambda_max_poisson (1/2) 0 1e-8 = .ok L) :=
  ⟨(lambda_max_poisson_validation 2 0).2.1 (by norm_num),
   (lambda_max_poisson_validation 1 0).2.1 (by norm_num),
   (lambda_max_poisson_validation (1/2) (-1)).2.2 (by norm_num) (by norm_num),
   (lambda_max_poisson_validation (1/2) 0).1.mpr (by norm_num)⟩

/-! ## C9: `lambda_max_poisson (1/2) 0` converges to `ln 2` -/

theorem overload0_gt_half_iff {x : ℝ} (hx : 0 ≤ x) :
    (1 - clamp01 (pSum 0 x) > 1 / 2) ↔ Real.log 2 < x := by
  have hps : pSum 0 x = Real.exp (-x) := by simp [pSum]
  rw [hps,
    clamp01_of_mem (Real.exp_pos (-x)).le (Real.exp_le_one_iff.mpr (neg_nonpos.mpr hx))]
  constructor
  · intro h
    have hlt : Real.exp (-x) < 1 / 2 := by linarith
    have hlog := (Real.lt_log_iff_exp_lt (by norm_num : (0 : ℝ) < 1 / 2)).mpr hlt
    rw [one_div, Real.log_inv] at hlog
    linarith
  · intro h
    have hx' : -x < Real.log (1 / 2) := by
      rw [one_div, Real.log_inv]
      linarith
    have := (Real.lt_log_iff_exp_lt (by norm_num : (0 : ℝ) < 1 / 2)).mp hx'
    linarith

theorem bracketHi_stop {δ : ℝ} {C : ℤ} (hC : 0 ≤ C) (n : ℕ) {hi : ℝ} (hhi : 0 ≤ hi)
    (hgt : 1 - clamp01 (pSum C.toNat hi) > δ) : bracketHi δ C (n + 1) hi = .ok hi := by
  have hov := poisson_overload_prob_eq_ok hC hhi
  simp only [bracketHi, hov, if_pos hgt]

theorem bisect_log_two :
    ∀ (n : ℕ) (lo hi : ℝ), 0 ≤ lo → lo ≤ Real.log 2 → Real.log 2 ≤ hi →
      ∃ L, bisect (1/2) 1e-8 0 n lo hi = .ok L ∧ 0 ≤ L ∧ L ≤ Real.log 2 ∧
        (Real.log 2 - L < 1e-8 * (1 + L) ∨ Real.log 2 - L ≤ (hi - lo) / 2 ^ n) := by
  intro n
  induction n with
  | zero =>
    intro lo hi hlo0 hlole hhige
    refine ⟨lo, rfl, hlo0, hlole, Or.inr ?_⟩
    rw [pow_zero, div_one]
    linarith
  | succ n ih =>
    intro lo hi hlo0 hlole hhige
    have hlog2pos : 0 < Real.log 2 := Real.log_pos one_lt_two
    have hhi0 : 0 ≤ hi := le_trans hlog2pos.le hhige
    have hmid0 : 0 ≤ 0.5 * (lo + hi) := by linarith
    have hov := poisson_overload_prob_eq_ok (le_refl (0 : ℤ)) hmid0
    simp only [Int.toNat_zero] at hov
    have h2n : ((2 : ℝ)) ^ n ≠ 0 := by positivity
    have hhalf : (0.5 * (lo + hi) - lo) / 2 ^ n = (hi - lo) / 2 ^ (n + 1) := by
      rw [pow_succ]
      field_simp
      ring
    have hhalf' : (hi - 0.5 * (lo + hi)) / 2 ^ n = (hi - lo) / 2 ^ (n + 1) := by
      rw [pow_succ]
      field_simp
      ring
    by_cases hgt : 1 - clamp01 (pSum 0 (0.5 * (lo + hi))) > 1 / 2
    · have hmidgt : Real.log 2 < 0.5 * (lo + hi) := (overload0_gt_half_iff hmid0).mp hgt
      by_cases hstop : 0.5 * (lo + hi) - lo < 1e-8 * (1 + lo)
      · refine ⟨lo, ?_, hlo0, hlole, Or.inl (by linarith)⟩
        simp only [bisect, hov, if_pos hgt, if_pos hstop]
      · obtain ⟨L, hL, hL0, hLle, hb⟩ := ih lo (0.5 * (lo + hi)) hlo0 hlole hmidgt.le
        refine ⟨L, ?_, hL0, hLle, ?_⟩
        · simp only [bisect, hov, if_pos hgt, if_neg hstop]
          exact hL
        · rcases hb with hb | hb
          · exact Or.inl hb
          · refine Or.inr ?_
            rw [← hhalf]
            exact hb
    · have hmidle : 0.5 * (lo + hi) ≤ Real.log 2 :=
        not_lt.mp (fun hc => hgt ((overload0_gt_half_iff hmid0).mpr hc))
      by_cases hstop : hi - 0.5 * (lo + hi) < 1e-8 * (1 + 0.5 * (lo + hi))
      · refine ⟨0.5 * (lo + hi), ?_, hmid0, hmidle, Or.inl (by linarith)⟩
        simp only [bisect, hov, if_neg hgt, if_pos hstop]
      · obtain ⟨L, hL, hL0, hLle, hb⟩ := ih (0.5 * (lo + hi)) hi hmid0 hmidle hhige
        refine ⟨L, ?_, hL0, hLle, ?_⟩
        · simp only [bisect, hov, if_neg hgt, if_neg hstop]
          exact hL
        · rcases hb with hb | hb
          · exact Or.inl hb
          · refine Or.inr ?_
            rw [← hhalf']
            exact hb

/-- C9: at `C = 0`, `delta = 1/2`, the value returned by `lambda_max_poisson`
equals `ln 2` (the solution of `1 - e^(-lam) = 1/2`) within an absolute
tolerance of `1e-6`. -/
theorem lambda_max_poisson_ln_two :
    ∃ L, lambda_max_poisson (1/2) 0 1e-8 = .ok L ∧ |L - Real.log 2| ≤ 1e-6 := by
  have hlog2lt : Real.log 2 < 1 := lt_trans Real.log_two_lt_d9 (by norm_num)
  have hlog2pos : 0 < Real.log 2 := Real.log_pos one_lt_two
  have hgt1 : (1 : ℝ) - clamp01 (pSum 0 1) > 1 / 2 :=
    (overload0_gt_half_iff zero_le_one).mpr hlog2lt
  have hbr : bracketHi (1/2) 0 80 1 = .ok 1 := bracketHi_stop le_rfl 79 zero_le_one hgt1
  obtain ⟨L, hbi, hL0, hLle, hbound⟩ := bisect_log_two 80 0 1 le_rfl hlog2pos.le hlog2lt.le
  refine ⟨L, ?_, ?_⟩
  · unfold lambda_max_poisson
    rw [if_neg (not_not_intro ⟨by norm_num, by norm_num⟩),
      if_neg (not_lt.mpr (le_refl (0 : ℤ)))]
    simp only [Int.cast_zero, zero_add, max_self]
    rw [hbr]
    exact hbi
  · rw [abs_of_nonpos (by linarith)]
    rcases hbound with h | h
    · linarith
    · have h80 : ((1 : ℝ) - 0) / 2 ^ (80 : ℕ) ≤ 1e-6 := by norm_num
      linarith

/-! ## Shape of `cap_roc` on validated inputs -/

theorem roundHalfEven_nonneg {x : ℝ} (hx : 0 ≤ x) : 0 ≤ roundHalfEven x := by
  unfold roundHalfEven
  have hf : (0 : ℤ) ≤ ⌊x⌋ := Int.floor_nonneg.mpr hx
  split_ifs <;> omega

theorem cap_roc_none_eq {R p tpr fpr C : ℝ} (hR : 0 < R) (hp : 0 ≤ p ∧ p ≤ 1)
    (ht : 0 ≤ tpr ∧ tpr ≤ 1) (hf : 0 ≤ fpr ∧ fpr ≤ 1) (hC : 0 ≤ C) :
    cap_roc R p tpr fpr C none = .ok
      { A := R * (p * tpr + (1 - p) * fpr)
        passed_mean := R * (p * tpr + (1 - p) * fpr) ≤ C
        fpr_max_mean_raw := if p < 1 then some ((C / R - p * tpr) / (1 - p)) else none
        tpr_max_mean_raw := if 0 < p then some ((C / R - (1 - p) * fpr) / p) else none
        C_required := R * (p * tpr + (1 - p) * fpr)
        delta := none } := by
  unfold cap_roc
  rw [if_neg (not_le.mpr hR), if_neg (not_not_intro hp), if_neg (not_not_intro ht),
    if_neg (not_not_intro hf), if_neg (not_lt.mpr hC)]

theorem cap_roc_some_shape {R p tpr fpr C : ℝ} (d : ℝ) (hR : 0 < R) (hp : 0 ≤ p ∧ p ≤ 1)
    (ht : 0 ≤ tpr ∧ tpr ≤ 1) (hf : 0 ≤ fpr ∧ fpr ≤ 1) (hC : 0 ≤ C) :
    cap_roc R p tpr fpr C (some d) =
      match lambda_max_poisson d (roundHalfEven C) 1e-8 with
      | .error e => .error e
      | .ok lamMax =>
        match poisson_overload_prob (R * (p * tpr + (1 - p) * fpr)) (roundHalfEven C) with
        | .error e => .error e
        | .ok ov =>
          .ok
            { A := R * (p * tpr + (1 - p) * fpr)
              passed_mean := R * (p * tpr + (1 - p) * fpr) ≤ C
              fpr_max_mean_raw := if p < 1 then some ((C / R - p * tpr) / (1 - p)) else none
              tpr_max_mean_raw := if 0 < p then some ((C / R - (1 - p) * fpr) / p) else none
              C_required := R * (p * tpr + (1 - p) * fpr)
              delta := some
                { delta := d
                  C_int := roundHalfEven C
                  lam_max := lamMax
                  overload_prob_at_A := ov
                  passed_delta := R * (p * tpr + (1 - p) * fpr) ≤ lamMax
                  fpr_max_delta_raw :=
                    if p < 1 then some ((lamMax / R - p * tpr) / (1 - p)) else none } } := by
  unfold cap_roc
  rw [if_neg (not_le.mpr hR), if_neg (not_not_intro hp), if_neg (not_not_intro ht),
    if_neg (not_not_intro hf), if_neg (not_lt.mpr hC)]

theorem cap_roc_some_eq {R p tpr fpr C d : ℝ} (hR : 0 < R) (hp : 0 ≤ p ∧ p ≤ 1)
    (ht : 0 ≤ tpr ∧ tpr ≤ 1) (hf : 0 ≤ fpr ∧ fpr ≤ 1) (hC : 0 ≤ C)
    (hd0 : 0 < d) (hd1 : d < 1) :
    ∃ lamMax ov, lambda_max_poisson d (roundHalfEven C) 1e-8 = .ok lamMax ∧
      poisson_overload_prob (R * (p * tpr + (1 - p) * fpr)) (roundHalfEven C) = .ok ov ∧
      cap_roc R p tpr fpr C (some d) = .ok
        { A := R * (p * tpr + (1 - p) * fpr)
          passed_mean := R * (p * tpr + (1 - p) * fpr) ≤ C
          fpr_max_mean_raw := if p < 1 then some ((C / R - p * tpr) / (1 - p)) else none
          tpr_max_mean_raw := if 0 < p then some ((C / R - (1 - p) * fpr) / p) else none
          C_required := R * (p * tpr + (1 - p) * fpr)
          delta := some
            { delta := d
              C_int := roundHalfEven C
              lam_max := lamMax
              overload_prob_at_A := ov
              passed_delta := R * (p * tpr + (1 - p) * fpr) ≤ lamMax
              fpr_max_delta_raw :=
                if p < 1 then some ((lamMax / R - p * tpr) / (1 - p)) else none } } := by
  obtain ⟨lamMax, _, hlam, _, _⟩ :=
    lambda_max_poisson_ok hd0 hd1 (roundHalfEven_nonneg hC) 1e-8
  have hA0 : 0 ≤ R * (p * tpr + (1 - p) * fpr) :=
    mul_nonneg hR.le
      (add_nonneg (mul_nonneg hp.1 ht.1) (mul_nonneg (by linarith [hp.2]) hf.1))
  have hov := poisson_overload_prob_eq_ok (roundHalfEven_nonneg hC) hA0
  refine ⟨lamMax, _, hlam, hov, ?_⟩
  rw [cap_roc_some_shape d hR hp ht hf hC, hlam, hov]

theorem cap_roc_some_invalid_delta {R p tpr fpr C d : ℝ} (hR : 0 < R) (hp : 0 ≤ p ∧ p ≤ 1)
    (ht : 0 ≤ tpr ∧ tpr ≤ 1) (hf : 0 ≤ fpr ∧ fpr ≤ 1) (hC : 0 ≤ C)
    (hd : ¬(0 < d ∧ d < 1)) :
    cap_roc R p tpr fpr C (some d) = .error "delta must be in (0,1)" := by
  rw [cap_roc_some_shape d hR hp ht hf hC, lambda_max_err_delta d (roundHalfEven C) 1e-8 hd]

/-! ## C5: input validation of `cap_roc` -/

/-- C5: with `delta` absent, `cap_roc` succeeds exactly when `R > 0`,
`p, tpr, fpr ∈ [0,1]` and `C ≥ 0`; each violated constraint (checked in source
order) produces the `InvalidInput` error naming the offending field, with no
partial result. -/
theorem cap_roc_input_validation (R p tpr fpr C : ℝ) :
    ((∃ out, cap_roc R p tpr fpr C none = .ok out) ↔
      (0 < R ∧ (0 ≤ p ∧ p ≤ 1) ∧ (0 ≤ tpr ∧ tpr ≤ 1) ∧ (0 ≤ fpr ∧ fpr ≤ 1) ∧ 0 ≤ C)) ∧
      (R ≤ 0 → cap_roc R p tpr fpr C none = .error "R must be > 0") ∧
      (0 < R → ¬(0 ≤ p ∧ p ≤ 1) →
        cap_roc R p tpr fpr C none = .error "p must be in [0,1]") ∧
      (0 < R → (0 ≤ p ∧ p ≤ 1) → ¬(0 ≤ tpr ∧ tpr ≤ 1) →
        cap_roc R p tpr fpr C none = .error "TPR must be in [0,1]") ∧
      (0 < R → (0 ≤ p ∧ p ≤ 1) → (0 ≤ tpr ∧ tpr ≤ 1) → ¬(0 ≤ fpr ∧ fpr ≤ 1) →
        cap_roc R p tpr fpr C none = .error "FPR must be in [0,1]") ∧
      (0 < R → (0 ≤ p ∧ p ≤ 1) → (0 ≤ tpr ∧ tpr ≤ 1) → (0 ≤ fpr ∧ fpr ≤ 1) → C < 0 →
        cap_roc R p tpr fpr C none = .error "C must be >= 0") := by
  have herrR : R ≤ 0 → cap_roc R p tpr fpr C none = .error "R must be > 0" := by
    intro h
    unfold cap_roc
    rw [if_pos h]
  have herrp : 0 < R → ¬(0 ≤ p ∧ p ≤ 1) →
      cap_roc R p tpr fpr C none = .error "p must be in [0,1]" := by
    intro hR h
    unfold cap_roc
    rw [if_neg (not_le.mpr hR), if_pos h]
  have herrt : 0 < R → (0 ≤ p ∧ p ≤ 1) → ¬(0 ≤ tpr ∧ tpr ≤ 1) →
      cap_roc R p tpr fpr C none = .error "TPR must be in [0,1]" := by
    intro hR hp h
    unfold cap_roc
    rw [if_neg (not_le.mpr hR), if_neg (not_not_intro hp), if_pos h]
  have herrf : 0 < R → (0 ≤ p ∧ p ≤ 1) → (0 ≤ tpr ∧ tpr ≤ 1) → ¬(0 ≤ fpr ∧ fpr ≤ 1) →
      cap_roc R p tpr fpr C none = .error "FPR must be in [0,1]" := by
    intro hR hp ht h
    unfold cap_roc
    rw [if_neg (not_le.mpr hR), if_neg (not_not_intro hp), if_neg (not_not_intro ht),
      if_pos h]
  have herrC : 0 < R → (0 ≤ p ∧ p ≤ 1) → (0 ≤ tpr ∧ tpr ≤ 1) → (0 ≤ fpr ∧ fpr ≤ 1) →
      C < 0 → cap_roc R p tpr fpr C none = .error "C must be >= 0" := by
    intro hR hp ht hf h
    unfold cap_roc
    rw [if_neg (not_le.mpr hR), if_neg (not_not_intro hp), if_neg (not_not_intro ht),
      if_neg (not_not_intro hf), if_pos h]
  refine ⟨⟨?_, ?_⟩, herrR, herrp, herrt, herrf, herrC⟩
  · rintro ⟨out, hout⟩
    by_cases hR : 0 < R
    · by_cases hp : 0 ≤ p ∧ p ≤ 1
      · by_cases ht : 0 ≤ tpr ∧ tpr ≤ 1
        · by_cases hf : 0 ≤ fpr ∧ fpr ≤ 1
          · by_cases hC : 0 ≤ C
            · exact ⟨hR, hp, ht, hf, hC⟩
            · rw [herrC hR hp ht hf (not_le.mp hC)] at hout
              exact Except.noConfusion hout
          · rw [herrf hR hp ht hf] at hout
            exact Except.noConfusion hout
        · rw [herrt hR hp ht] at hout
          exact Except.noConfusion hout
      · rw [herrp hR hp] at hout
        exact Except.noConfusion hout
    · rw [herrR (not_lt.mp hR)] at hout
      exact Except.noConfusion hout
  · rintro ⟨hR, hp, ht, hf, hC⟩
    exact ⟨_, cap_roc_none_eq hR hp ht hf hC⟩

/-- C5 witness: the success branch and all five error branches at concrete inputs. -/
theorem cap_roc_input_validation_witness :
    (∃ out, cap_roc 1 0 0 0 0 none = .ok out) ∧
      cap_roc (-1) 0 0 0 0 none = .error "R must be > 0" ∧
      cap_roc 1 2 0 0 0 none = .error "p must be in [0,1]" ∧
      cap_roc 1 0 2 0 0 none = .error "TPR must be in [0,1]" ∧
      cap_roc 1 0 0 2 0 none = .error "FPR must be in [0,1]" ∧
      cap_roc 1 0 0 0 (-1) none = .error "C must be >= 0" :=
  ⟨(cap_roc_input_validation 1 0 0 0 0).1.mpr (by norm_num),
   (cap_roc_input_validation (-1) 0 0 0 0).2.1 (by norm_num),
   (cap_roc_input_validation 1 2 0 0 0).2.2.1 (by norm_num) (by norm_num),
   (cap_roc_input_validation 1 0 2 0 0).2.2.2.1 (by norm_num) (by norm_num) (by norm_num),
   (cap_roc_input_validation 1 0 0 2 0).2.2.2.2.1 (by norm_num) (by norm_num) (by norm_num)
     (by norm_num),
   (cap_roc_input_validation 1 0 0 0 (-1)).2.2.2.2.2 (by norm_num) (by norm_num)
     (by norm_num) (by norm_num) (by norm_num)⟩

/-! ## C2: the mean gate -/

/-- C2: for every valid input, `cap_roc` succeeds (with `delta` absent), and every
successful result carries `A = R·(p·tpr + (1-p)·fpr)` exactly, the mean-gate
verdict `passed_mean ↔ A ≤ C`, and `C_required = A`. -/
theorem cap_roc_mean_gate (R p tpr fpr C : ℝ) (hR : 0 < R) (hp0 : 0 ≤ p) (hp1 : p ≤ 1)
    (ht0 : 0 ≤ tpr) (ht1 : tpr ≤ 1) (hf0 : 0 ≤ fpr) (hf1 : fpr ≤ 1) (hC : 0 ≤ C) :
    (∃ out, cap_roc R p tpr fpr C none = .ok out) ∧
      ∀ (dopt : Option ℝ) (out : CapRocOut), cap_roc R p tpr fpr C dopt = .ok out →
        out.A = R * (p * tpr + (1 - p) * fpr) ∧ (out.passed_mean ↔ out.A ≤ C) ∧
          out.C_required = out.A := by
  have hp : 0 ≤ p ∧ p ≤ 1 := ⟨hp0, hp1⟩
  have ht : 0 ≤ tpr ∧ tpr ≤ 1 := ⟨ht0, ht1⟩
  have hf : 0 ≤ fpr ∧ fpr ≤ 1 := ⟨hf0, hf1⟩
  refine ⟨⟨_, cap_roc_none_eq hR hp ht hf hC⟩, ?_⟩
  intro dopt out hout
  cases dopt with
  | none =>
    rw [cap_roc_none_eq hR hp ht hf hC] at hout
    injection hout with h
    subst h
    exact ⟨rfl, Iff.rfl, rfl⟩
  | some d =>
    by_cases hd : 0 < d ∧ d < 1
    · obtain ⟨lamMax, ov, _, _, heq⟩ := cap_roc_some_eq hR hp ht hf hC hd.1 hd.2
      rw [heq] at hout
      injection hout with h
      subst h
      exact ⟨rfl, Iff.rfl, rfl⟩
    · rw [cap_roc_some_invalid_delta hR hp ht hf hC hd] at hout
      exact Except.noConfusion hout

/-- C2 witness: the spec's concrete scenario 1
(`R=20, p=0.01, tpr=0.85, fpr=0.30, C=4`). -/
theorem cap_roc_mean_gate_witness :
    ∃ out, cap_roc 20 (1/100) (85/100) (30/100) 4 none = .ok out ∧
      out.A = 20 * ((1/100) * (85/100) + (1 - 1/100) * (30/100)) ∧
      (out.passed_mean ↔ out.A ≤ 4) ∧ out.C_required = out.A := by
  have h := cap_roc_mean_gate 20 (1/100) (85/100) (30/100) 4 (by norm_num) (by norm_num)
    (by norm_num) (by norm_num) (by norm_num) (by norm_num) (by norm_num) (by norm_num)
  obtain ⟨⟨out, hout⟩, hall⟩ := h
  exact ⟨out, hout, hall none out hout⟩

/-! ## C8: the `p = 1` undefined markers -/

/-- C8: for valid inputs with `delta` supplied, when `p = 1` both
`fpr_max_mean_raw` and `fpr_max_delta_raw` are the undefined marker (`none`, which
cannot enter further arithmetic), and when `p < 1` both carry exactly their
division formulas. -/
theorem cap_roc_fpr_markers (R p tpr fpr C d : ℝ) (hR : 0 < R) (hp0 : 0 ≤ p) (hp1 : p ≤ 1)
    (ht0 : 0 ≤ tpr) (ht1 : tpr ≤ 1) (hf0 : 0 ≤ fpr) (hf1 : fpr ≤ 1) (hC : 0 ≤ C)
    (hd0 : 0 < d) (hd1 : d < 1) :
    ∃ out dout, cap_roc R p tpr fpr C (some d) = .ok out ∧ out.delta = some dout ∧
      (p = 1 → out.fpr_max_mean_raw = none ∧ dout.fpr_max_delta_raw = none) ∧
      (p < 1 → out.fpr_max_mean_raw = some ((C / R - p * tpr) / (1 - p)) ∧
        dout.fpr_max_delta_raw = some ((dout.lam_max / R - p * tpr) / (1 - p))) := by
  obtain ⟨lamMax, ov, _, _, heq⟩ :=
    cap_roc_some_eq hR ⟨hp0, hp1⟩ ⟨ht0, ht1⟩ ⟨hf0, hf1⟩ hC hd0 hd1
  refine ⟨_, _, heq, rfl, ?_, ?_⟩
  · intro hpeq
    have hnlt : ¬(p < 1) := by
      rw [hpeq]
      exact lt_irrefl 1
    constructor
    · show (if p < 1 then some ((C / R - p * tpr) / (1 - p)) else none) = none
      rw [if_neg hnlt]
    · show (if p < 1 then some ((lamMax / R - p * tpr) / (1 - p)) else none) = none
      rw [if_neg hnlt]
  · intro hplt
    constructor
    · show (if p < 1 then some ((C / R - p * tpr) / (1 - p)) else none) =
        some ((C / R - p * tpr) / (1 - p))
      rw [if_pos hplt]
    · show (if p < 1 then some ((lamMax / R - p * tpr) / (1 - p)) else none) =
        some ((lamMax / R - p * tpr) / (1 - p))
      rw [if_pos hplt]

/-- C8 witness: concrete instances at `p = 1` and at `p = 1/2`. -/
theorem cap_roc_fpr_markers_witness :
    (∃ out dout, cap_roc 1 1 0 0 0 (some (1/2)) = .ok out ∧ out.delta = some dout ∧
      (out.fpr_max_mean_raw = none ∧ dout.fpr_max_delta_raw = none)) ∧
      (∃ out dout, cap_roc 1 (1/2) 0 0 0 (some (1/2)) = .ok out ∧ out.delta = some dout ∧
        (out.fpr_max_mean_raw = some ((0 / 1 - (1/2) * 0) / (1 - 1/2)) ∧
          dout.fpr_max_delta_raw = some ((dout.lam_max / 1 - (1/2) * 0) / (1 - 1/2)))) := by
  constructor
  · obtain ⟨out, dout, hok, hdo, hmark, _⟩ := cap_roc_fpr_markers 1 1 0 0 0 (1/2)
      (by norm_num) (by norm_num) (by norm_num) (by norm_num) (by norm_num) (by norm_num)
      (by norm_num) (by norm_num) (by norm_num) (by norm_num)
    exact ⟨out, dout, hok, hdo, hmark rfl⟩
  · obtain ⟨out, dout, hok, hdo, _, hval⟩ := cap_roc_fpr_markers 1 (1/2) 0 0 0 (1/2)
      (by norm_num) (by norm_num) (by norm_num) (by norm_num) (by norm_num) (by norm_num)
      (by norm_num) (by norm_num) (by norm_num) (by norm_num)
    exact ⟨out, dout, hok, hdo, hval (by norm_num)⟩

/-! ## C10: the capacity rounding mode is round-half-to-even -/

/-- C10: with `delta` supplied, the integer capacity used by the Poisson gate is
`roundHalfEven C` — Python's builtin `round`, i.e. banker's rounding — so
`C = 0.5` gives `C_int = 0`, `C = 1.5` gives `C_int = 2`, `C = 2.5` gives
`C_int = 2`. -/
theorem cap_roc_banker_rounding (R p tpr fpr C d : ℝ) (hR : 0 < R) (hp0 : 0 ≤ p)
    (hp1 : p ≤ 1) (ht0 : 0 ≤ tpr) (ht1 : tpr ≤ 1) (hf0 : 0 ≤ fpr) (hf1 : fpr ≤ 1)
    (hC : 0 ≤ C) (hd0 : 0 < d) (hd1 : d < 1) :
    (∃ out dout, cap_roc R p tpr fpr C (some d) = .ok out ∧ out.delta = some dout ∧
      dout.C_int = roundHalfEven C) ∧
      roundHalfEven (1/2) = 0 ∧ roundHalfEven (3/2) = 2 ∧ roundHalfEven (5/2) = 2 := by
  obtain ⟨lamMax, ov, _, _, heq⟩ :=
    cap_roc_some_eq hR ⟨hp0, hp1⟩ ⟨ht0, ht1⟩ ⟨hf0, hf1⟩ hC hd0 hd1
  refine ⟨⟨_, _, heq, rfl, rfl⟩, ?_, ?_, ?_⟩
  · have hfl : ⌊(1/2 : ℝ)⌋ = 0 := by
      rw [Int.floor_eq_iff]
      constructor <;> norm_num
    unfold roundHalfEven
    rw [hfl, if_neg (by norm_num : ¬((1/2 : ℝ) - ((0 : ℤ) : ℝ) < 1 / 2)),
      if_neg (by norm_num : ¬((1/2 : ℝ) - ((0 : ℤ) : ℝ) > 1 / 2)),
      if_pos (by decide : Even (0 : ℤ))]
  · have hfl : ⌊(3/2 : ℝ)⌋ = 1 := by
      rw [Int.floor_eq_iff]
      constructor <;> norm_num
    unfold roundHalfEven
    rw [hfl, if_neg (by norm_num : ¬((3/2 : ℝ) - ((1 : ℤ) : ℝ) < 1 / 2)),
      if_neg (by norm_num : ¬((3/2 : ℝ) - ((1 : ℤ) : ℝ) > 1 / 2)),
      if_neg (by decide : ¬Even (1 : ℤ))]
    norm_num
  · have hfl : ⌊(5/2 : ℝ)⌋ = 2 := by
      rw [Int.floor_eq_iff]
      constructor <;> norm_num
    unfold roundHalfEven
    rw [hfl, if_neg (by norm_num : ¬((5/2 : ℝ) - ((2 : ℤ) : ℝ) < 1 / 2)),
      if_neg (by norm_num : ¬((5/2 : ℝ) - ((2 : ℤ) : ℝ) > 1 / 2)),
      if_pos (by decide : Even (2 : ℤ))]

/-- C10 witness: concrete instance at `C = 1/2`. -/
theorem cap_roc_banker_rounding_witness :
    (∃ out dout, cap_roc 1 0 0 0 (1/2) (some (1/2)) = .ok out ∧ out.delta = some dout ∧
      dout.C_int = roundHalfEven (1/2)) ∧
      roundHalfEven (1/2) = 0 ∧ roundHalfEven (3/2) = 2 ∧ roundHalfEven (5/2) = 2 :=
  cap_roc_banker_rounding 1 0 0 0 (1/2) (1/2) (by norm_num) (by norm_num) (by norm_num)
    (by norm_num) (by norm_num) (by norm_num) (by norm_num) (by norm_num) (by norm_num)
    (by norm_num)

end

end CapRoc
